import Mathlib

/-!
Verification of the ollama-paperless-summarizer repository.

The development shallowly embeds the TypeScript sources:
* `src/index.ts` (the summarization entry point): `summarizeText`,
  `processDocumentPages`, the per-document main loop, and the posted
  note body.
* `src/cleanupNotes.ts`: the CLI argument gates, `findAndDeleteSummaries`
  (the all-mode paginated cleanup crawl) and `deleteAiNotesAtDocument`.
* `src/config/config.ts` and `src/utils/envUtils.ts`: marker resolution and
  environment validation.

HTTP is abstracted as a function from URL to a fetch result; the model
generation stream is abstracted as the finite list of its chunks; loops whose
termination depends on remote data take a fuel parameter, and running out of
fuel stands for non-termination.  JavaScript truthiness on the optional
fields is modelled explicitly (an absent value and the values `0` and `""`
are falsy).
-/

/-! ### String helpers (JS `includes`, `startsWith`, `endsWith` over code points) -/

/-- Substring occurrence on character lists: `charsContain needle hay` is
true iff `needle` occurs contiguously inside `hay`.  This is the semantics of
JavaScript `hay.includes(needle)`. -/
def charsContain (needle : List Char) : List Char → Bool
  | [] => needle.isEmpty
  | c :: cs => needle.isPrefixOf (c :: cs) || charsContain needle cs

/-- JS `s.includes(needle)`. -/
def containsSub (s needle : String) : Bool :=
  charsContain needle.toList s.toList

/-- JS `s.startsWith(pre)`. -/
def startsWithSub (s pre : String) : Bool :=
  pre.toList.isPrefixOf s.toList

/-- JS `s.endsWith(suf)`. -/
def endsWithSub (s suf : String) : Bool :=
  suf.toList.isSuffixOf s.toList

/-! ### JS `parseInt(s, 10)` -/

/-- Decimal value of a digit list (most significant first). -/
def digitsToNat (ds : List Char) : Nat :=
  ds.foldl (fun a c => a * 10 + (c.toNat - 48)) 0

/-- JS whitespace accepted by `parseInt` before the number. -/
def jsSpace (c : Char) : Bool :=
  c = ' ' || c = '\t' || c = '\n' || c = '\r' || c = '\x0b' || c = '\x0c'

/-- JS `parseInt(s, 10)`: skip leading whitespace, an optional sign, then the
longest (possibly improper) digit prefix; `none` models `NaN` (no digits).
Trailing non-digit characters are ignored, so `parseInt("5abc") = 5`. -/
def jsParseInt (s : String) : Option Int :=
  match s.toList.dropWhile jsSpace with
  | '-' :: rest =>
      let ds := rest.takeWhile Char.isDigit
      if ds.isEmpty then none else some (-(digitsToNat ds : Int))
  | '+' :: rest =>
      let ds := rest.takeWhile Char.isDigit
      if ds.isEmpty then none else some (digitsToNat ds : Int)
  | rest =>
      let ds := rest.takeWhile Char.isDigit
      if ds.isEmpty then none else some (digitsToNat ds : Int)

/-! ### Data model (src/interfaces) -/

/-- A note of a paperless document (interfaces/paperless-note.ts); only the
fields the programs read. -/
structure PaperlessNote where
  id : Nat
  note : Option String
deriving Repr, DecidableEq

/-- A paperless document as returned on listing pages and single-document
fetches (interfaces/paperless-document.ts). -/
structure PaperlessDocument where
  id : Option Nat
  content : Option String
  notes : Option (List PaperlessNote)
deriving Repr, DecidableEq

/-- One page of the paginated listing (interfaces/paperless-search-result.ts). -/
structure SearchPage where
  results : Option (List PaperlessDocument)
  next : Option String
deriving Repr, DecidableEq

/-- The summarizer configuration (config/config.ts, interfaces). -/
structure SummarizerConfiguration where
  CONTEXT_LENGTH : Int
  MODEL_NAME : String
  SUMMARY_MARKER : String
  SUMMARY_PROMPT : String
deriving Repr, DecidableEq

/-- What fetching a listing URL can yield, as the crawls distinguish it:
a non-2xx response (`response.ok` false), a body that fails JSON parsing,
or a parsed `SearchPage`. -/
inductive FetchResult where
  | notOk (statusText : String)
  | badJson
  | ok (page : SearchPage)
deriving Repr, DecidableEq

/-- JS truthiness of the optional numeric `id` field: absent and `0` are
falsy (the code tests `!d.id`). -/
def idTruthy : Option Nat → Bool
  | none => false
  | some n => n != 0

/-- JS `note.note?.includes(marker)` — also the semantics of the cleanup's
`typeof note.note === 'string' && note.note.includes(marker)`: an absent
text never matches; a present text matches iff it contains the marker. -/
def noteTextIncludes (marker : String) (n : PaperlessNote) : Bool :=
  match n.note with
  | none => false
  | some t => containsSub t marker

/-! ### Page Scanner: `processDocumentPages` (src/index.ts) -/

/-- The body of the scanner's per-document check,
`!notes || !notes.some(note => note.note?.includes(CONFIG.SUMMARY_MARKER))`:
a document counts as unsummarized when its `notes` field is absent or no
note's text contains the marker. -/
def docIsUnsummarized (marker : String) (d : PaperlessDocument) : Bool :=
  match d.notes with
  | none => true
  | some ns => !(ns.any (noteTextIncludes marker))

/-- The scanner's inner `for (const d of page.results)` loop: skip documents
with a falsy `id`, push the id of each unsummarized document, in results
order. -/
def pageUnsummarizedIds (marker : String) (docs : List PaperlessDocument) : List Nat :=
  docs.filterMap fun d =>
    if idTruthy d.id then
      if docIsUnsummarized marker d then d.id else none
    else none

/-- How a scanner run ends. `outOfFuel` stands for an execution that has not
terminated within the given number of loop iterations. -/
inductive ScanOutcome where
  | finished (ids : List Nat)
  | requestError (statusText : String)
  | jsonError
  | outOfFuel
deriving Repr, DecidableEq

/-- The `while (hasPages)` loop of `processDocumentPages`, returning the list
of listing URLs requested (in request order) and the outcome.  Faithful
points: a non-ok response throws; `if (!page.results) continue` retries the
same URL (the loop variable is not advanced); a falsy `next` (absent or the
empty string) ends the loop; otherwise the crawl follows `next` with no
validation. -/
def scanPages (fetch : String → FetchResult) (marker : String) :
    Nat → String → List Nat → List String × ScanOutcome
  | 0, _, _ => ([], .outOfFuel)
  | fuel + 1, url, acc =>
    match fetch url with
    | .notOk st => ([url], .requestError st)
    | .badJson => ([url], .jsonError)
    | .ok page =>
      match page.results with
      | none =>
        let r := scanPages fetch marker fuel url acc
        (url :: r.1, r.2)
      | some docs =>
        let acc2 := acc ++ pageUnsummarizedIds marker docs
        match page.next with
        | none => ([url], .finished acc2)
        | some nxt =>
          if nxt = "" then ([url], .finished acc2)
          else
            let r := scanPages fetch marker fuel nxt acc2
            (url :: r.1, r.2)

/-- A fetch environment serves a finite chain of well-formed listing pages
from `url`: every page has a present `results` list, each page's `next` is
the (non-empty) URL of its successor, and the last page has no `next`.  The
chain records each page's `results`. -/
inductive ServesChain (fetch : String → FetchResult) :
    String → List (List PaperlessDocument) → Prop
  | last {url : String} {docs : List PaperlessDocument}
      (h : fetch url = .ok ⟨some docs, none⟩) :
      ServesChain fetch url [docs]
  | cons {url nxt : String} {docs : List PaperlessDocument}
      {rest : List (List PaperlessDocument)}
      (h : fetch url = .ok ⟨some docs, some nxt⟩) (hne : nxt ≠ "")
      (htail : ServesChain fetch nxt rest) :
      ServesChain fetch url (docs :: rest)

/-- Code-side denotation of a successful scan over a chain of pages: the
per-page unsummarized ids, page after page. -/
def scanIdsOfPages (marker : String) : List (List PaperlessDocument) → List Nat
  | [] => []
  | docs :: rest => pageUnsummarizedIds marker docs ++ scanIdsOfPages marker rest

/-- Modelled from the spec claim, for comparison with `pageUnsummarizedIds`:
a document qualifies iff its `id` is present and either it has no notes or no
note's text contains the marker as a substring. -/
def specPageIds (marker : String) (docs : List PaperlessDocument) : List Nat :=
  docs.filterMap fun d =>
    match d.id with
    | none => none
    | some i => if docIsUnsummarized marker d then some i else none

/-- Spec-side denotation of the whole scan: qualifying ids in page order,
within each page in results order. -/
def specScanIds (marker : String) : List (List PaperlessDocument) → List Nat
  | [] => []
  | docs :: rest => specPageIds marker docs ++ specScanIds marker rest

/-! ### Cleanup crawl: `findAndDeleteSummaries` (src/cleanupNotes.ts) -/

/-- How the all-mode cleanup crawl ends.  `markerUndefined` is the throw at
the head of `findAndDeleteSummaries`; `abortedBadNext` is the `break` on a
`next` URL that does not start with the base URL (the offending URL is what
the code logs); `abortedJsonParse` is the `return` after a JSON parse
failure; `fatalRequestError` is the rethrown non-ok response; `outOfFuel`
stands for an execution that has not terminated. -/
inductive CleanupOutcome where
  | completed
  | abortedBadNext (url : String)
  | abortedJsonParse
  | fatalRequestError (statusText : String)
  | markerUndefined
  | outOfFuel
deriving Repr, DecidableEq

/-- The note-deletion requests the cleanup issues for one page:
for every document with a truthy `id` and a present `notes` array, one
`(documentId, noteId)` per note whose text contains the marker. -/
def pageDeletions (marker : String) (docs : List PaperlessDocument) : List (Nat × Nat) :=
  docs.flatMap fun d =>
    match d.id, d.notes with
    | some i, some ns =>
      if i != 0 then (ns.filter (noteTextIncludes marker)).map fun n => (i, n.id)
      else []
    | _, _ => []

/-- The `while (nextPage)` loop of `findAndDeleteSummaries`, returning the
listing URLs requested, the note deletions issued, and the outcome.
Faithful points: a non-ok response is rethrown; an unparsable body returns;
a missing `results` retries the same URL (`continue` without advancing);
`page.next?.toString() || null` makes an absent or empty `next` end the
loop; a non-empty `next` that does not start with the base URL breaks after
the current page's deletions were already dispatched. -/
def cleanupCrawl (fetch : String → FetchResult) (baseUrl marker : String) :
    Nat → String → List String × List (Nat × Nat) × CleanupOutcome
  | 0, _ => ([], [], .outOfFuel)
  | fuel + 1, url =>
    match fetch url with
    | .notOk st => ([url], [], .fatalRequestError st)
    | .badJson => ([url], [], .abortedJsonParse)
    | .ok page =>
      match page.results with
      | none =>
        let r := cleanupCrawl fetch baseUrl marker fuel url
        (url :: r.1, r.2.1, r.2.2)
      | some docs =>
        let dels := pageDeletions marker docs
        match page.next with
        | none => ([url], dels, .completed)
        | some nxt =>
          if nxt = "" then ([url], dels, .completed)
          else if startsWithSub nxt baseUrl then
            let r := cleanupCrawl fetch baseUrl marker fuel nxt
            (url :: r.1, dels ++ r.2.1, r.2.2)
          else ([url], dels, .abortedBadNext nxt)

/-- `findAndDeleteSummaries`: throws `SUMMARY_MARKER is undefined` when the
configured marker is falsy (the empty string), before any request; otherwise
crawls from the seed listing URL. -/
def findAndDeleteSummaries (fetch : String → FetchResult) (baseUrl marker : String)
    (fuel : Nat) : List String × List (Nat × Nat) × CleanupOutcome :=
  if marker.isEmpty then ([], [], .markerUndefined)
  else cleanupCrawl fetch baseUrl marker fuel (baseUrl ++ "/documents/?ordering=-id")

/-- `deleteAiNotesAtDocument`: fetch the document's notes sub-resource (one
request); on failure log and return; otherwise delete each marker-containing
note.  Returns the requested URL and the `(documentId, noteId)` deletions. -/
def deleteAiNotesAtDocument (fetchNotes : String → Except String (List PaperlessNote))
    (paperlessUrl : String) (documentId : Int) (marker : String) :
    List String × List (Int × Nat) :=
  let url := paperlessUrl ++ "/documents/" ++ toString documentId ++ "/notes/"
  match fetchNotes url with
  | .error _ => ([url], [])
  | .ok notes =>
      ([url], (notes.filter (noteTextIncludes marker)).map fun n => (documentId, n.id))

/-! ### Cleanup CLI argument validation (src/cleanupNotes.ts) -/

/-- The cleanup mode selected by the CLI argument. -/
inductive CleanupMode where
  | all
  | single (id : Int)
deriving Repr, DecidableEq

/-- The check inside `main`:
`if (command !== 'all' && (isNaN(documentId) || documentId <= 0)) throw`. -/
def parseCleanupCommand (command : String) : Except String CleanupMode :=
  if command = "all" then .ok .all
  else
    match jsParseInt command with
    | none => .error "Invalid command. Use \"all\" or a positive number as document ID."
    | some n =>
      if n ≤ 0 then .error "Invalid command. Use \"all\" or a positive number as document ID."
      else .ok (.single n)

/-- Both argument gates of cleanupNotes.ts in order: the module-level check
`args.length !== 1 || (args[0] !== 'all' && isNaN(parseInt(args[0], 10)))`,
then the check inside `main`. -/
def parseCleanupArgs (args : List String) : Except String CleanupMode :=
  match args with
  | [a] =>
    if a = "all" || (jsParseInt a).isSome then parseCleanupCommand a
    else .error "Usage: node script.js <all|number>"
  | _ => .error "Usage: node script.js <all|number>"

/-- How a cleanup run ends at top level. -/
inductive CleanupRunResult where
  | usageError (msg : String)
  | ranAll (outcome : CleanupOutcome)
  | ranSingle
deriving Repr, DecidableEq

/-- The cleanup entry point: validate the argument, then run all-mode or
single-document mode.  Returns every HTTP request issued (listing or notes
URLs), the note deletions as `(documentId, noteId)`, and the result; a
rejected argument issues no request. -/
def cleanupMain (args : List String) (fetch : String → FetchResult)
    (fetchNotes : String → Except String (List PaperlessNote))
    (base marker : String) (fuel : Nat) :
    List String × List (Int × Nat) × CleanupRunResult :=
  match parseCleanupArgs args with
  | .error e => ([], [], .usageError e)
  | .ok .all =>
      let r := findAndDeleteSummaries fetch base marker fuel
      (r.1, r.2.1.map (fun p => ((p.1 : Int), p.2)), .ranAll r.2.2)
  | .ok (.single n) =>
      let r := deleteAiNotesAtDocument fetchNotes base n marker
      (r.1, r.2, .ranSingle)

/-- Spec-side predicate: the string is a plain decimal numeral of a positive
integer (only digits, non-zero value). -/
def isPosIntLiteral (s : String) : Bool :=
  !s.isEmpty && s.toList.all Char.isDigit && digitsToNat s.toList != 0

/-! ### Configuration and environment (src/config/config.ts, src/utils/envUtils.ts) -/

/-- `process.env.SUMMARY_MARKER ?? 'AI_SUMMARY'`: the nullish-coalescing
default applies only when the variable is absent — a set-but-empty variable
resolves to the empty string. -/
def resolveMarker (envValue : Option String) : String :=
  envValue.getD "AI_SUMMARY"

/-- The startup error message of envUtils.ts. -/
def ERR_MISSING_ENV_VARIABLES : String :=
  "The environment variables PAPERLESS_TOKEN and PAPERLESS_URL must be set in order to run the program."

/-- `validateEnvironmentVariables`: throws iff the token or the URL is falsy
(absent variables were already defaulted to the empty string). -/
def validateEnvironmentVariables (apiKey paperlessUrl : String) : Except String Unit :=
  if apiKey.isEmpty || paperlessUrl.isEmpty then .error ERR_MISSING_ENV_VARIABLES
  else .ok ()

/-! ### JSON serialization of the configuration (`JSON.stringify(CONFIG)`) -/

/-- One hexadecimal digit, lower case, as `JSON.stringify` writes it. -/
def hexDigit (n : Nat) : String :=
  String.singleton (Char.ofNat (if n < 10 then 48 + n else 87 + (n % 16)))

/-- `JSON.stringify` escaping of one character inside a string literal. -/
def jsonEscapeChar (c : Char) : String :=
  if c = '"' then "\\\""
  else if c = '\\' then "\\\\"
  else if c = '\n' then "\\n"
  else if c = '\r' then "\\r"
  else if c = '\t' then "\\t"
  else if c = '\x08' then "\\b"
  else if c = '\x0c' then "\\f"
  else if c.toNat < 32 then "\\u00" ++ hexDigit (c.toNat / 16) ++ hexDigit (c.toNat % 16)
  else String.singleton c

/-- `JSON.stringify` escaping of a whole string body. -/
def jsonEscape (s : String) : String :=
  String.join (s.toList.map jsonEscapeChar)

/-- A flat JSON value, as the configuration object's fields are. -/
inductive JsonValue where
  | num (n : Int)
  | str (s : String)
deriving Repr, DecidableEq

/-- Rendering of a flat JSON value. -/
def JsonValue.render : JsonValue → String
  | .num n => toString n
  | .str s => "\"" ++ jsonEscape s ++ "\""

/-- Rendering of a JSON object with flat fields, exactly as `JSON.stringify`
lays it out (no whitespace, insertion order). -/
def renderJsonObject (fields : List (String × JsonValue)) : String :=
  "\x7b" ++ String.intercalate ","
    (fields.map fun f => "\"" ++ jsonEscape f.1 ++ "\":" ++ f.2.render) ++ "\x7d"

/-- The configuration object's fields in their insertion order in
config/config.ts. -/
def configJsonFields (c : SummarizerConfiguration) : List (String × JsonValue) :=
  [("CONTEXT_LENGTH", .num c.CONTEXT_LENGTH),
   ("MODEL_NAME", .str c.MODEL_NAME),
   ("SUMMARY_MARKER", .str c.SUMMARY_MARKER),
   ("SUMMARY_PROMPT", .str c.SUMMARY_PROMPT)]

/-- `JSON.stringify(CONFIG)`. -/
def jsonStringifyConfig (c : SummarizerConfiguration) : String :=
  renderJsonObject (configJsonFields c)

/-! ### Summary Generator: `summarizeText` (src/index.ts) -/

/-- The `for await (const part of summary)` loop of `summarizeText`: fold the
streamed chunks in arrival order into the accumulator, and mirror each chunk
to standard output when `display` is set.  Returns the accumulated text and
the list of chunks written to standard output. -/
def summarizeLoop (display : Bool) : List String → String → List String → String × List String
  | [], acc, out => (acc, out)
  | part :: rest, acc, out =>
      summarizeLoop display rest (acc ++ part) (if display then out ++ [part] else out)

/-- `summarizeText`, with the generation stream abstracted as the finite list
of its chunks (each chunk is one `part.response`).  Returns the summary and
the chunks mirrored to standard output. -/
def summarizeText (chunks : List String) (display : Bool) : String × List String :=
  summarizeLoop display chunks "" []

/-- Spec-side: concatenation of the chunks in arrival order. -/
def concatChunks : List String → String
  | [] => ""
  | c :: cs => c ++ concatChunks cs

/-! ### Summary Writer: the main loop of src/index.ts -/

/-- The posted note body:
`summary + "\n\n" + "Model-Configuration:" + JSON.stringify(CONFIG) + "\n" + CONFIG.SUMMARY_MARKER`. -/
def noteBody (summary : String) (c : SummarizerConfiguration) : String :=
  summary ++ "\n\n" ++ "Model-Configuration:" ++ jsonStringifyConfig c ++ "\n" ++ c.SUMMARY_MARKER

/-- The effect environment of the main loop: each arrow models one fallible
step (document fetch, model generation giving the stream's chunks, note
posting, local file write), with `Except.error` standing for a thrown or
rejected operation. -/
structure DocProcessEnv where
  fetchDoc : Nat → Except String PaperlessDocument
  generate : String → Except String (List String)
  postNote : Nat → String → Except String Unit
  writeFile : Nat → String → Except String Unit
  config : SummarizerConfiguration
  saveTxtSummary : Nat

/-- What the loop records for one document id. -/
inductive DocOutcome where
  | summarized (body : String) (fileWritten : Bool)
  | failed (msg : String)
deriving Repr, DecidableEq

/-- The `try` body of the main loop for one id, with the surrounding `catch`
turning any thrown error into `.failed` (logged with the id by the caller):
fetch the document; a falsy `content` (absent or empty) throws; generate and
fold the summary; post the composite note body; write the local file when
`saveTxtSummary` is truthy. -/
def processOneDoc (env : DocProcessEnv) (id : Nat) : DocOutcome :=
  match env.fetchDoc id with
  | .error e => .failed e
  | .ok doc =>
    match doc.content with
    | none => .failed "Malformed document content. Skipping document."
    | some content =>
      if content.isEmpty then .failed "Malformed document content. Skipping document."
      else
        match env.generate (env.config.SUMMARY_PROMPT ++ " " ++ content) with
        | .error e => .failed e
        | .ok chunks =>
          let summary := (summarizeText chunks false).1
          let body := noteBody summary env.config
          match env.postNote id body with
          | .error e => .failed e
          | .ok _ =>
            if env.saveTxtSummary != 0 then
              match env.writeFile id summary with
              | .error e => .failed e
              | .ok _ => .summarized body true
            else .summarized body false

/-- The `for (const id of unsummarizedDocumentIds)` loop: every id is
processed in order, each inside its own try/catch. -/
def mainLoop (env : DocProcessEnv) : List Nat → List (Nat × DocOutcome)
  | [] => []
  | id :: rest => (id, processOneDoc env id) :: mainLoop env rest

/-! ### Helper lemmas -/

theorem summarizeLoop_spec (display : Bool) (cs : List String) (acc : String) (out : List String) :
    summarizeLoop display cs acc out =
      (acc ++ concatChunks cs, out ++ (if display then cs else [])) := by
  induction cs generalizing acc out with
  | nil => simp [summarizeLoop, concatChunks]
  | cons p rest ih =>
      rw [summarizeLoop, ih, concatChunks]
      cases display <;> simp [String.append_assoc]

theorem charsContain_of_isPrefixOf {needle hay : List Char} (h : needle.isPrefixOf hay = true) :
    charsContain needle hay = true := by
  cases hay with
  | nil =>
      cases needle with
      | nil => simp [charsContain]
      | cons a as => simp at h
  | cons c cs => simp [charsContain, h]

theorem charsContain_append_self (needle t : List Char) :
    charsContain needle (needle ++ t) = true :=
  charsContain_of_isPrefixOf (List.isPrefixOf_iff_prefix.2 (List.prefix_append _ _))

theorem charsContain_append_left (a : List Char) {needle hay : List Char}
    (h : charsContain needle hay = true) : charsContain needle (a ++ hay) = true := by
  induction a with
  | nil => simpa
  | cons x xs ih => simp [charsContain, ih]

theorem startsWithSub_append (pre b : String) : startsWithSub (pre ++ b) pre = true := by
  unfold startsWithSub
  exact List.isPrefixOf_iff_prefix.2 (by simp)

theorem endsWithSub_append (a suf : String) : endsWithSub (a ++ suf) suf = true := by
  unfold endsWithSub
  exact List.isSuffixOf_iff_suffix.2 (by simp)

/-! ### Claim theorems -/

/-- Claim C8: `summarizeText` returns exactly the concatenation of the
streamed chunks in arrival order, the returned value is identical for
`display = true` and `display = false`, and the display flag only mirrors
the chunks (in order) to standard output. -/
theorem summarizeText_concatenates_chunks (chunks : List String) :
    (summarizeText chunks true).1 = concatChunks chunks ∧
    (summarizeText chunks false).1 = concatChunks chunks ∧
    (summarizeText chunks true).2 = chunks ∧
    (summarizeText chunks false).2 = [] := by
  simp [summarizeText, summarizeLoop_spec]

/-- Claim C2: the posted note body is exactly the generated summary, two
newlines, the literal label `Model-Configuration:` followed by the
JSON-serialized active configuration, a newline, and the bare marker; the
body ends with the marker preceded by a newline (its own trailing line),
contains the substring `Model-Configuration:` followed by the rendering of a
JSON object; and with generation chunks `Sum`, `mary`, the body starts with
`Summary\n\nModel-Configuration:`. -/
theorem posted_note_body_composition (chunks : List String) (c : SummarizerConfiguration) :
    noteBody (summarizeText chunks false).1 c =
      concatChunks chunks ++ "\n\n" ++ "Model-Configuration:" ++
        renderJsonObject (configJsonFields c) ++ "\n" ++ c.SUMMARY_MARKER ∧
    endsWithSub (noteBody (summarizeText chunks false).1 c) ("\n" ++ c.SUMMARY_MARKER) = true ∧
    containsSub (noteBody (summarizeText chunks false).1 c) "Model-Configuration:" = true ∧
    jsonStringifyConfig c = renderJsonObject (configJsonFields c) ∧
    startsWithSub (noteBody (summarizeText ["Sum", "mary"] false).1 c)
      "Summary\n\nModel-Configuration:" = true := by
  have hs : (summarizeText chunks false).1 = concatChunks chunks := by
    simp [summarizeText, summarizeLoop_spec]
  refine ⟨?_, ?_, ?_, rfl, ?_⟩
  · rw [hs, noteBody, jsonStringifyConfig]
  · have e : noteBody (summarizeText chunks false).1 c =
        ((summarizeText chunks false).1 ++ "\n\n" ++ "Model-Configuration:" ++
          jsonStringifyConfig c) ++ ("\n" ++ c.SUMMARY_MARKER) := by
      simp only [noteBody, String.append_assoc]
    rw [e]
    exact endsWithSub_append _ _
  · have e : noteBody (summarizeText chunks false).1 c =
        ((summarizeText chunks false).1 ++ "\n\n") ++ ("Model-Configuration:" ++
          (jsonStringifyConfig c ++ ("\n" ++ c.SUMMARY_MARKER))) := by
      simp only [noteBody, String.append_assoc]
    rw [e, containsSub]
    simp only [String.toList, String.data_append]
    exact charsContain_append_left _ (charsContain_append_self _ _)
  · have hsum : (summarizeText ["Sum", "mary"] false).1 = "Summary" := rfl
    have e : noteBody "Summary" c =
        "Summary\n\nModel-Configuration:" ++
          (jsonStringifyConfig c ++ ("\n" ++ c.SUMMARY_MARKER)) := by
      rw [show ("Summary\n\nModel-Configuration:" : String) =
            "Summary" ++ ("\n\n" ++ "Model-Configuration:") from rfl]
      simp only [noteBody, String.append_assoc]
    rw [hsum, e]
    exact startsWithSub_append _ _

theorem pageUnsummarizedIds_eq_spec {marker : String} :
    ∀ {docs : List PaperlessDocument}, (∀ d ∈ docs, d.id ≠ some 0) →
      pageUnsummarizedIds marker docs = specPageIds marker docs := by
  intro docs h
  induction docs with
  | nil => rfl
  | cons d rest ih =>
      have hd : d.id ≠ some 0 := h d (by simp)
      have ht : ∀ x ∈ rest, x.id ≠ some 0 := fun x hx => h x (by simp [hx])
      simp only [pageUnsummarizedIds, specPageIds, List.filterMap_cons] at ih ⊢
      cases hid : d.id with
      | none => simpa [idTruthy, hid] using ih ht
      | some i =>
          have hi : i ≠ 0 := fun e => hd (by rw [hid, e])
          cases hu : docIsUnsummarized marker d <;>
            simpa [idTruthy, hid, hi, hu] using ih ht

theorem scanIdsOfPages_eq_spec {marker : String} :
    ∀ {docss : List (List PaperlessDocument)},
      (∀ docs ∈ docss, ∀ d ∈ docs, d.id ≠ some 0) →
      scanIdsOfPages marker docss = specScanIds marker docss := by
  intro docss h
  induction docss with
  | nil => rfl
  | cons docs rest ih =>
      rw [scanIdsOfPages, specScanIds,
        pageUnsummarizedIds_eq_spec (h docs (by simp)),
        ih fun x hx => h x (by simp [hx])]

theorem scanPages_chain {fetch : String → FetchResult} {marker url : String}
    {docss : List (List PaperlessDocument)}
    (hchain : ServesChain fetch url docss) :
    ∀ fuel acc, docss.length ≤ fuel →
      (scanPages fetch marker fuel url acc).2 =
        .finished (acc ++ scanIdsOfPages marker docss) := by
  induction hchain with
  | last h =>
      intro fuel acc hf
      cases fuel with
      | zero => simp at hf
      | succ f => simp [scanPages, h, scanIdsOfPages]
  | cons h hne htail ih =>
      intro fuel acc hf
      cases fuel with
      | zero => simp at hf
      | succ f =>
          have hrest := Nat.le_of_succ_le_succ (by simpa using hf)
          simp [scanPages, h, hne, scanIdsOfPages, ih f _ hrest, List.append_assoc]

/-- Claim C1: over any finite chain of listing pages, `processDocumentPages`
returns exactly the ids, in crawl order, of the documents with a present id
and either no notes or no note whose text contains the marker (documents
with a marker-containing note are never returned; documents without a
present id are skipped).  The positivity hypothesis reflects the data
model's ids (the code's falsy-id test also drops a present id 0). -/
theorem processDocumentPages_returns_unsummarized_ids
    (fetch : String → FetchResult) (marker url : String)
    (docss : List (List PaperlessDocument)) (fuel : Nat)
    (hchain : ServesChain fetch url docss)
    (hfuel : docss.length ≤ fuel)
    (hids : ∀ docs ∈ docss, ∀ d ∈ docs, d.id ≠ some 0) :
    (scanPages fetch marker fuel url []).2 = .finished (specScanIds marker docss) := by
  rw [scanPages_chain hchain fuel [] hfuel, List.nil_append,
    scanIdsOfPages_eq_spec hids]

/-- Results of the first concrete example page: an unsummarized document 7,
a document without id, and a document 8 carrying a marker note. -/
def pageDocsA1 : List PaperlessDocument :=
  [⟨some 7, none, none⟩,
   ⟨none, none, none⟩,
   ⟨some 8, none, some [⟨1, some "xxAI_SUMMARYyy"⟩]⟩]

/-- Results of the second concrete example page: an unsummarized document 9. -/
def pageDocsA2 : List PaperlessDocument :=
  [⟨some 9, none, some [⟨2, some "hello"⟩]⟩]

/-- A two-page fetch environment serving `pageDocsA1` then `pageDocsA2`. -/
def scanEnvA : String → FetchResult := fun url =>
  if url = "http://paperless/documents/?ordering=-id" then
    .ok ⟨some pageDocsA1, some "http://paperless/documents/?page=2"⟩
  else if url = "http://paperless/documents/?page=2" then
    .ok ⟨some pageDocsA2, none⟩
  else .notOk "404"

theorem processDocumentPages_returns_unsummarized_ids_witness :
    (scanPages scanEnvA "AI_SUMMARY" 2 "http://paperless/documents/?ordering=-id" []).2 =
      .finished [7, 9] :=
  (processDocumentPages_returns_unsummarized_ids scanEnvA "AI_SUMMARY"
      "http://paperless/documents/?ordering=-id" [pageDocsA1, pageDocsA2] 2
      (@ServesChain.cons scanEnvA "http://paperless/documents/?ordering=-id"
        "http://paperless/documents/?page=2" pageDocsA1 [pageDocsA2] (by decide) (by decide)
        (@ServesChain.last scanEnvA "http://paperless/documents/?page=2" pageDocsA2 (by decide)))
      (by decide) (by decide)).trans (by decide)

/-- Claim C5: over three well-formed pages P1→P2→P3 where only P3 lacks a
next link, the scan issues exactly the three page requests, in order, and
returns the qualifying ids page by page, within each page in results
order — for any remaining fuel, so no fourth request is ever issued. -/
theorem scan_three_pages_exact_requests
    (fetch : String → FetchResult) (marker u1 u2 u3 : String)
    (ds1 ds2 ds3 : List PaperlessDocument) (n : Nat)
    (h1 : fetch u1 = .ok ⟨some ds1, some u2⟩) (hne2 : u2 ≠ "")
    (h2 : fetch u2 = .ok ⟨some ds2, some u3⟩) (hne3 : u3 ≠ "")
    (h3 : fetch u3 = .ok ⟨some ds3, none⟩)
    (hids1 : ∀ d ∈ ds1, d.id ≠ some 0) (hids2 : ∀ d ∈ ds2, d.id ≠ some 0)
    (hids3 : ∀ d ∈ ds3, d.id ≠ some 0) :
    scanPages fetch marker (n + 3) u1 [] =
      ([u1, u2, u3],
       .finished (specPageIds marker ds1 ++ specPageIds marker ds2 ++
         specPageIds marker ds3)) := by
  simp [scanPages, h1, h2, h3, hne2, hne3, pageUnsummarizedIds_eq_spec hids1,
    pageUnsummarizedIds_eq_spec hids2, pageUnsummarizedIds_eq_spec hids3,
    List.append_assoc]

/-- A three-page fetch environment: `pageDocsA1`, then `pageDocsA2`, then a
page holding only an unsummarized document 4. -/
def scanEnvB : String → FetchResult := fun url =>
  if url = "http://paperless/documents/?ordering=-id" then
    .ok ⟨some pageDocsA1, some "http://paperless/documents/?page=2"⟩
  else if url = "http://paperless/documents/?page=2" then
    .ok ⟨some pageDocsA2, some "http://paperless/documents/?page=3"⟩
  else if url = "http://paperless/documents/?page=3" then
    .ok ⟨some [⟨some 4, none, none⟩], none⟩
  else .notOk "404"

theorem scan_three_pages_exact_requests_witness :
    scanPages scanEnvB "AI_SUMMARY" 3 "http://paperless/documents/?ordering=-id" [] =
      (["http://paperless/documents/?ordering=-id",
        "http://paperless/documents/?page=2",
        "http://paperless/documents/?page=3"],
       .finished [7, 9, 4]) :=
  (scan_three_pages_exact_requests scanEnvB "AI_SUMMARY"
      "http://paperless/documents/?ordering=-id" "http://paperless/documents/?page=2"
      "http://paperless/documents/?page=3" pageDocsA1 pageDocsA2 [⟨some 4, none, none⟩] 0
      (by decide) (by decide) (by decide) (by decide) (by decide)
      (by decide) (by decide) (by decide)).trans (by decide)

/-- Claim C4 (amended): only the all-mode cleanup crawl validates the
pagination link against the base URL; the summarization scan follows any
present non-empty next URL with no validation.  First conjunct: the scan's
next request after a page with next link `nxt` goes to `nxt`
unconditionally.  Second conjunct: cleanup aborts on a non-matching `nxt`. -/
theorem pagination_validation_only_in_cleanup
    (fetch : String → FetchResult) (base marker url : String)
    (page : SearchPage) (docs : List PaperlessDocument) (nxt : String)
    (fuel : Nat) (acc : List Nat)
    (hfetch : fetch url = .ok page) (hres : page.results = some docs)
    (hnext : page.next = some nxt) (hne : nxt ≠ "") :
    scanPages fetch marker (fuel + 1) url acc =
      (url :: (scanPages fetch marker fuel nxt
          (acc ++ pageUnsummarizedIds marker docs)).1,
       (scanPages fetch marker fuel nxt
          (acc ++ pageUnsummarizedIds marker docs)).2) ∧
    (startsWithSub nxt base = false →
      cleanupCrawl fetch base marker (fuel + 1) url =
        ([url], pageDeletions marker docs, .abortedBadNext nxt)) := by
  constructor
  · simp [scanPages, hfetch, hres, hnext, hne]
  · intro hbad
    simp [cleanupCrawl, hfetch, hres, hnext, hne, hbad]

/-- A fetch environment whose seed page carries a next link outside the
configured base URL, and which serves that foreign URL as a well-formed
final page. -/
def scanEnvEvil : String → FetchResult := fun url =>
  if url = "http://paperless/documents/?ordering=-id" then
    .ok ⟨some [], some "http://evil.example/p2"⟩
  else if url = "http://evil.example/p2" then
    .ok ⟨some [⟨some 7, none, none⟩], none⟩
  else .notOk "404"

theorem scanner_follows_foreign_next_counterexample :
    startsWithSub "http://evil.example/p2" "http://paperless" = false ∧
    scanPages scanEnvEvil "AI_SUMMARY" 2 "http://paperless/documents/?ordering=-id" [] =
      (["http://paperless/documents/?ordering=-id", "http://evil.example/p2"],
       .finished [7]) := by
  decide

theorem pagination_validation_only_in_cleanup_witness :
    scanPages scanEnvEvil "AI_SUMMARY" 2 "http://paperless/documents/?ordering=-id" [] =
      ("http://paperless/documents/?ordering=-id" ::
        (scanPages scanEnvEvil "AI_SUMMARY" 1 "http://evil.example/p2"
          ([] ++ pageUnsummarizedIds "AI_SUMMARY" [])).1,
       (scanPages scanEnvEvil "AI_SUMMARY" 1 "http://evil.example/p2"
          ([] ++ pageUnsummarizedIds "AI_SUMMARY" [])).2) ∧
    cleanupCrawl scanEnvEvil "http://paperless" "AI_SUMMARY" 2
        "http://paperless/documents/?ordering=-id" =
      (["http://paperless/documents/?ordering=-id"],
       pageDeletions "AI_SUMMARY" [], .abortedBadNext "http://evil.example/p2") := by
  have h := pagination_validation_only_in_cleanup scanEnvEvil "http://paperless"
    "AI_SUMMARY" "http://paperless/documents/?ordering=-id"
    ⟨some [], some "http://evil.example/p2"⟩ [] "http://evil.example/p2" 1 []
    (by decide) rfl rfl (by decide)
  exact ⟨h.1, h.2 (by decide)⟩

/-- Claim C3: in all-mode cleanup, when a fetched page's next URL is present
(and non-empty) but does not start with the configured base URL, the crawl
stops at that page: the current page is the only listing request, the
offending URL is recorded in the outcome (what the code logs), and no
further requests or deletions beyond the current page's are issued. -/
theorem cleanup_stops_on_invalid_next
    (fetch : String → FetchResult) (base marker url : String)
    (page : SearchPage) (docs : List PaperlessDocument) (nxt : String) (fuel : Nat)
    (hfetch : fetch url = .ok page) (hres : page.results = some docs)
    (hnext : page.next = some nxt) (hne : nxt ≠ "")
    (hbad : startsWithSub nxt base = false) :
    cleanupCrawl fetch base marker (fuel + 1) url =
      ([url], pageDeletions marker docs, .abortedBadNext nxt) := by
  simp [cleanupCrawl, hfetch, hres, hnext, hne, hbad]

theorem cleanup_stops_on_invalid_next_witness :
    cleanupCrawl scanEnvEvil "http://paperless" "AI_SUMMARY" 5
        "http://paperless/documents/?ordering=-id" =
      (["http://paperless/documents/?ordering=-id"], [],
       .abortedBadNext "http://evil.example/p2") :=
  (cleanup_stops_on_invalid_next scanEnvEvil "http://paperless" "AI_SUMMARY"
      "http://paperless/documents/?ordering=-id"
      ⟨some [], some "http://evil.example/p2"⟩ [] "http://evil.example/p2" 4
      (by decide) rfl rfl (by decide) (by decide)).trans (by decide)

/-- A fetch environment whose seed page has no `results` field but carries a
next link to a well-formed second page. -/
def scanEnvNoResults : String → FetchResult := fun url =>
  if url = "http://paperless/documents/?ordering=-id" then
    .ok ⟨none, some "http://paperless/documents/?page=2"⟩
  else if url = "http://paperless/documents/?page=2" then
    .ok ⟨some [⟨some 7, none, none⟩], none⟩
  else .notOk "404"

/-- Claim C9 (code bug): on a listing page with a missing `results` field
both crawls execute `continue` without advancing the page URL, so they
re-request the same URL forever instead of skipping the page: for every
fuel the request trace is the seed URL repeated and the run never finishes
(the linked second page is never requested, nothing is skipped). -/
theorem missing_results_refetches_same_page (fuel : Nat) :
    scanPages scanEnvNoResults "AI_SUMMARY" fuel
        "http://paperless/documents/?ordering=-id" [] =
      (List.replicate fuel "http://paperless/documents/?ordering=-id", .outOfFuel) ∧
    cleanupCrawl scanEnvNoResults "http://paperless" "AI_SUMMARY" fuel
        "http://paperless/documents/?ordering=-id" =
      (List.replicate fuel "http://paperless/documents/?ordering=-id", [], .outOfFuel) := by
  have henv : scanEnvNoResults "http://paperless/documents/?ordering=-id" =
      .ok ⟨none, some "http://paperless/documents/?page=2"⟩ := by decide
  induction fuel with
  | zero => exact ⟨rfl, rfl⟩
  | succ f ih =>
      refine ⟨?_, ?_⟩
      · simp [scanPages, henv, ih.1, List.replicate_succ]
      · simp [cleanupCrawl, henv, ih.2, List.replicate_succ]

/-- Claim C10: when the SUMMARY_MARKER environment variable is set to the
empty string, the nullish-coalescing default preserves the empty marker and
environment validation still succeeds, yet all-mode cleanup throws its
`SUMMARY_MARKER is undefined` error with no request issued. -/
theorem empty_marker_aborts_cleanup_before_requests
    (fetch : String → FetchResult) (base apiKey : String) (fuel : Nat)
    (hk : apiKey ≠ "") (hb : base ≠ "") :
    validateEnvironmentVariables apiKey base = .ok () ∧
    resolveMarker (some "") = "" ∧
    findAndDeleteSummaries fetch base (resolveMarker (some "")) fuel =
      ([], [], .markerUndefined) := by
  refine ⟨?_, rfl, rfl⟩
  have hk2 : apiKey.isEmpty = false := by
    cases h : apiKey.isEmpty
    · rfl
    · exact absurd ((String.isEmpty_iff apiKey).1 h) hk
  have hb2 : base.isEmpty = false := by
    cases h : base.isEmpty
    · rfl
    · exact absurd ((String.isEmpty_iff base).1 h) hb
  simp [validateEnvironmentVariables, hk2, hb2]

theorem empty_marker_aborts_cleanup_before_requests_witness :
    validateEnvironmentVariables "token" "http://paperless" = .ok () ∧
    resolveMarker (some "") = "" ∧
    findAndDeleteSummaries (fun _ => .notOk "404") "http://paperless"
        (resolveMarker (some "")) 5 = ([], [], .markerUndefined) :=
  empty_marker_aborts_cleanup_before_requests (fun _ => .notOk "404")
    "http://paperless" "token" 5 (by decide) (by decide)

/-- Claim C6: the summarization loop processes every id, in order, each
inside its own try/catch, so each id's outcome is exactly its own
processing result and no failing document aborts the batch; an absent or
empty content field fails only that document, with the loop's structural
error message. -/
theorem main_loop_failure_isolation (env : DocProcessEnv) (ids : List Nat) :
    mainLoop env ids = ids.map (fun id => (id, processOneDoc env id)) ∧
    (∀ id doc, env.fetchDoc id = .ok doc →
      (doc.content = none ∨ doc.content = some "") →
      processOneDoc env id = .failed "Malformed document content. Skipping document.") := by
  constructor
  · induction ids with
    | nil => rfl
    | cons i rest ih => simp [mainLoop, ih]
  · intro id doc hf hc
    rcases hc with hc | hc <;>
      simp [processOneDoc, hf, hc, show ("" : String).isEmpty = true from by decide]

/-- Claim C7 (amended): the cleanup entry point accepts exactly one
positional argument that is either the literal token `all` or a string
whose JS `parseInt` prefix-parse yields a positive integer — so trailing
non-digit characters are accepted and ignored (`"5abc"` runs as document
5); every rejected argument vector (including `"-5"`, `"0"`, wrong arity)
fails with a fatal usage error and no network request is issued. -/
theorem cleanup_argument_gate_amended (args : List String)
    (fetch : String → FetchResult)
    (fetchNotes : String → Except String (List PaperlessNote))
    (base marker : String) (fuel : Nat) :
    ((∃ m, parseCleanupArgs args = .ok m) ↔
      args.length = 1 ∧ (args.headD "" = "all" ∨
        ∃ n : Int, jsParseInt (args.headD "") = some n ∧ 0 < n)) ∧
    (∀ e, parseCleanupArgs args = .error e →
      cleanupMain args fetch fetchNotes base marker fuel = ([], [], .usageError e)) := by
  constructor
  · match args with
    | [] => simp [parseCleanupArgs]
    | [a] =>
      by_cases ha : a = "all"
      · simp [parseCleanupArgs, parseCleanupCommand, ha]
      · cases hp : jsParseInt a with
        | none => simp [parseCleanupArgs, parseCleanupCommand, ha, hp]
        | some n =>
          by_cases hn : n ≤ 0
          · have hn2 : ¬(0 : Int) < n := by omega
            simp [parseCleanupArgs, parseCleanupCommand, ha, hp, hn, hn2]
          · have hn2 : (0 : Int) < n := by omega
            simp [parseCleanupArgs, parseCleanupCommand, ha, hp, hn, hn2]
    | a :: b :: rest => simp [parseCleanupArgs]
  · intro e he
    simp [cleanupMain, he]

/-- Counterexample to claim C7 as stated: the argument `"5abc"` is neither
the literal `all` nor a positive-integer numeral, yet both gates accept it
(as document id 5) and the run issues a network request instead of failing
with a usage error. -/
theorem cleanup_accepts_trailing_garbage_counterexample :
    parseCleanupArgs ["5abc"] = .ok (.single 5) ∧
    isPosIntLiteral "5abc" = false ∧
    ("5abc" : String) ≠ "all" ∧
    (cleanupMain ["5abc"] (fun _ => .notOk "404") (fun _ => .error "network error")
        "http://paperless" "AI_SUMMARY" 3).1 =
      ["http://paperless/documents/5/notes/"] := by
  refine ⟨rfl, rfl, by decide, rfl⟩
